/-
Verification of the ConnSailLib single-header C++ library (`conn.hh`) against
its natural-language specification.

The library is embedded shallowly:
* `double` values become exact reals (`ℝ`); `std::sin`, `std::cos`, `std::asin`,
  `std::atan`, `std::sqrt`, `std::floor` become their Mathlib counterparts, and
  `std::atan2` / `std::fmod` are modelled by `conn.atan2` / `conn.fmod` below
  with the C semantics (quadrant-correct arctangent, remainder rounded toward
  zero).
* `std::vector<double>` becomes `List ℝ`; a GPS point
  (`std::vector<std::vector<double>>`) becomes `List (List ℝ)`; the planar
  track points used by the track generators become `ℝ × ℝ` pairs and a track
  is a `List (ℝ × ℝ)`.
* functions that `throw std::runtime_error` are modelled in the `Except`
  monad, returning `Except.error` with the thrown message.
* the C++ overload `conn::distance` on two GPS points is named
  `conn.distanceGPSPoints` here (Lean has no overloading by argument type).
-/
import Mathlib

noncomputable section

namespace conn

/-- `const double pi = 3.1415926535798932384626433;` (conn.hh line 43).
Note the literal differs from the true value of π in the 11th decimal
(π = 3.14159265358979…, the constant is 3.14159265357989…). -/
def pi : ℝ := 3.1415926535798932384626433

/-- `const double earthRadius = 6371000.;` (conn.hh line 47). -/
def earthRadius : ℝ := 6371000

/-- `const double semiMajorEarthAxis = 6378137.;` (conn.hh line 51). -/
def semiMajorEarthAxis : ℝ := 6378137

/-- `const double semiMinorEarthAxis = 6356752.314245;` (conn.hh line 55). -/
def semiMinorEarthAxis : ℝ := 6356752.314245

/-- `conn::failIfNotAGPSCoordinate` (conn.hh lines 88-94): throws a runtime
error unless the coordinate has exactly 3 values. -/
def failIfNotAGPSCoordinate (coordinate : List ℝ) : Except String Unit :=
  if 3 = coordinate.length then Except.ok ()
  else Except.error "GPS coordinate should have 3 values."

/-- `conn::failIfNotAGPSPoint` (conn.hh lines 103-112): throws a runtime error
unless the point has exactly 2 coordinates, then validates both coordinates. -/
def failIfNotAGPSPoint (point : List (List ℝ)) : Except String Unit :=
  if 2 = point.length then do
    failIfNotAGPSCoordinate (point.getD 0 [])
    failIfNotAGPSCoordinate (point.getD 1 [])
  else
    Except.error "GPS point should have 2 coordinates."

/-- `conn::radiansFromDegrees` (conn.hh lines 127-129). -/
def radiansFromDegrees (degrees : ℝ) : ℝ :=
  degrees * conn.pi / 180

/-- `conn::degreesFromRadians` (conn.hh lines 136-138). -/
def degreesFromRadians (radians : ℝ) : ℝ :=
  radians * 180 / conn.pi

/-- `conn::degreesFromGPSCoordinate` (conn.hh lines 148-155): validates the
shape, then returns `coordinate[0] + coordinate[1]/60 + coordinate[2]/3600`. -/
def degreesFromGPSCoordinate (coordinate : List ℝ) : Except String ℝ := do
  failIfNotAGPSCoordinate coordinate
  pure (coordinate.getD 0 0 + coordinate.getD 1 0 / 60
    + coordinate.getD 2 0 / (60 * 60))

/-- `conn::gpsCoordinateFromDegrees` (conn.hh lines 217-227): decomposes
decimal degrees into a (degrees, minutes, seconds) triple by repeated
`floor`. -/
def gpsCoordinateFromDegrees (income : ℝ) : List ℝ :=
  let degrees : ℝ := ((⌊income⌋ : ℤ) : ℝ)
  let minutes : ℝ := ((⌊(income - degrees) * 60⌋ : ℤ) : ℝ)
  let seconds : ℝ := ((⌊(income - degrees - minutes / 60) * 3600⌋ : ℤ) : ℝ)
  [degrees, minutes, seconds]

/-- `conn::gpsCoordinateFromRadians` (conn.hh lines 235-241): converts radians
to degrees, then decomposes. -/
def gpsCoordinateFromRadians (income : ℝ) : List ℝ :=
  conn.gpsCoordinateFromDegrees (conn.degreesFromRadians income)

/-- `conn::gpsPointFromDegrees` (conn.hh lines 250-260). -/
def gpsPointFromDegrees (latitude longitude : ℝ) : List (List ℝ) :=
  [conn.gpsCoordinateFromDegrees latitude, conn.gpsCoordinateFromDegrees longitude]

/-- `conn::gpsPointFromRadians` (conn.hh lines 269-279).  The body is
identical to `gpsPointFromDegrees`: both components are produced by
`conn::gpsCoordinateFromDegrees(latitude)` / `(longitude)` directly, with no
radians-to-degrees conversion, exactly as in the C++ source. -/
def gpsPointFromRadians (latitude longitude : ℝ) : List (List ℝ) :=
  [conn.gpsCoordinateFromDegrees latitude, conn.gpsCoordinateFromDegrees longitude]

/-- `conn::calculateEarthRadius(double)` (conn.hh lines 403-415). -/
def calculateEarthRadius (latitude : ℝ) : ℝ :=
  let beta := conn.radiansFromDegrees latitude
  let a := conn.semiMajorEarthAxis
  let b := conn.semiMinorEarthAxis
  let A := (a * Real.cos beta) ^ 2
  let B := (b * Real.sin beta) ^ 2
  Real.sqrt ((a ^ 2 * A + b ^ 2 * B) / (A + B))

/-- Truncation of a real toward zero, as an integer: models the implicit
`trunc` used by C's `fmod`. -/
def rtrunc (r : ℝ) : ℤ :=
  if 0 ≤ r then ⌊r⌋ else ⌈r⌉

/-- Model of C `std::fmod x y = x - trunc(x / y) * y` over exact reals. -/
def fmod (x y : ℝ) : ℝ :=
  x - y * ((conn.rtrunc (x / y) : ℤ) : ℝ)

/-- Model of C `std::atan2 y x` over exact reals: the quadrant-correct
arctangent, with `atan2 0 0 = 0`. -/
def atan2 (y x : ℝ) : ℝ :=
  if 0 < x then Real.arctan (y / x)
  else if x < 0 then
    (if 0 ≤ y then Real.arctan (y / x) + Real.pi
     else Real.arctan (y / x) - Real.pi)
  else
    (if 0 < y then Real.pi / 2
     else if y < 0 then -(Real.pi / 2)
     else 0)

/-- `conn::distance` on decimal degrees (conn.hh lines 468-495): Haversine
distance, on the mean Earth radius or on the WGS-84 radius at the midpoint
latitude when `shouldCalculateEarthRadius` is set. -/
def distance (latitude1 longitude1 latitude2 longitude2 : ℝ)
    (shouldCalculateEarthRadius : Bool) : ℝ :=
  let radius :=
    if shouldCalculateEarthRadius then
      conn.calculateEarthRadius (0.5 * (latitude1 + latitude2))
    else conn.earthRadius
  let lat1 := conn.radiansFromDegrees latitude1
  let lon1 := conn.radiansFromDegrees longitude1
  let lat2 := conn.radiansFromDegrees latitude2
  let lon2 := conn.radiansFromDegrees longitude2
  let deltaLatitude := lat2 - lat1
  let deltaLongitude := lon2 - lon1
  let a := Real.sin (0.5 * deltaLatitude) ^ 2
    + Real.cos lat1 * Real.cos lat2 * Real.sin (0.5 * deltaLongitude) ^ 2
  let b := 2 * conn.atan2 (Real.sqrt a) (Real.sqrt (1 - a))
  radius * b

/-- `conn::distance` on two GPS points (conn.hh lines 512-526): validates both
points and delegates to the degree-based `conn::distance`.  As in the C++
source, the delegated call passes only four arguments, so
`shouldCalculateEarthRadius` falls back to its default value `false`. -/
def distanceGPSPoints (point1 point2 : List (List ℝ))
    (shouldCalculateEarthRadius : Bool) : Except String ℝ := do
  let _ := shouldCalculateEarthRadius
  failIfNotAGPSPoint point1
  failIfNotAGPSPoint point2
  let a ← degreesFromGPSCoordinate (point1.getD 0 [])
  let b ← degreesFromGPSCoordinate (point1.getD 1 [])
  let c ← degreesFromGPSCoordinate (point2.getD 0 [])
  let d ← degreesFromGPSCoordinate (point2.getD 1 [])
  pure (conn.distance a b c d false)

/-- `conn::destination` (conn.hh lines 543-580): the direct geodesic problem;
returns the pair (latitude, longitude) of the destination in decimal degrees,
the longitude being passed through `fmod(· + 540, 360) - 180`. -/
def destination (latitude longitude dist bearing : ℝ)
    (shouldCalculateEarthRadius : Bool) : ℝ × ℝ :=
  let radius :=
    if shouldCalculateEarthRadius then conn.calculateEarthRadius latitude
    else conn.earthRadius
  let angularDistance := dist / radius
  let bearing' := conn.radiansFromDegrees bearing
  let latitude' := conn.radiansFromDegrees latitude
  let longitude' := conn.radiansFromDegrees longitude
  let sin1 := Real.sin latitude'
  let cos1 := Real.cos latitude'
  let sin2 := Real.sin angularDistance
  let cos2 := Real.cos angularDistance
  let sin3 := Real.sin bearing'
  let cos3 := Real.cos bearing'
  let sin4 := sin1 * cos2 + cos1 * sin2 * cos3
  let nextLatitude := Real.arcsin sin4
  let y := sin3 * sin2 * cos1
  let x := cos2 - sin1 * sin4
  let nextLongitude := longitude' + conn.atan2 y x
  (conn.degreesFromRadians nextLatitude,
    conn.fmod (conn.degreesFromRadians nextLongitude + 540) 360 - 180)

/-- The destination longitude in decimal degrees before the final
`fmod(· + 540, 360) - 180` normalization: the intermediate value
`degreesFromRadians nextLongitude` of `conn::destination` (conn.hh line 578),
used to state when the normalization is the identity. -/
def unnormalizedDestinationLongitude (latitude longitude dist bearing : ℝ)
    (shouldCalculateEarthRadius : Bool) : ℝ :=
  let radius :=
    if shouldCalculateEarthRadius then conn.calculateEarthRadius latitude
    else conn.earthRadius
  let angularDistance := dist / radius
  let bearing' := conn.radiansFromDegrees bearing
  let latitude' := conn.radiansFromDegrees latitude
  let longitude' := conn.radiansFromDegrees longitude
  let sin1 := Real.sin latitude'
  let cos1 := Real.cos latitude'
  let sin2 := Real.sin angularDistance
  let cos2 := Real.cos angularDistance
  let sin3 := Real.sin bearing'
  let cos3 := Real.cos bearing'
  let sin4 := sin1 * cos2 + cos1 * sin2 * cos3
  let y := sin3 * sin2 * cos1
  let x := cos2 - sin1 * sin4
  conn.degreesFromRadians (longitude' + conn.atan2 y x)

/-- `conn::line` (conn.hh lines 633-656): appends `numberOfPoints` points
linearly interpolated from the last point of the track. -/
def line (points : List (ℝ × ℝ)) (length angle : ℝ)
    (numberOfPoints : ℕ) : List (ℝ × ℝ) :=
  let xOffset := (points.getLastD (0, 0)).1
  let yOffset := (points.getLastD (0, 0)).2
  let xLength := length * Real.sin angle
  let yLength := length * Real.cos angle
  points ++ (List.range numberOfPoints).map (fun i =>
    let cut : ℝ := ((i + 1 : ℕ) : ℝ) / (numberOfPoints : ℝ)
    (xOffset + cut * xLength, yOffset + cut * yLength))

/-- `conn::rectangle` (conn.hh lines 669-688): four `line` calls, turning the
heading by `0.5 * pi` each time and alternating the side length.  The loop
state is (track, current length, current angle). -/
def rectangle (points : List (ℝ × ℝ)) (width height angle : ℝ)
    (numberOfPoints : ℕ) : List (ℝ × ℝ) :=
  ((List.range 4).foldl
    (fun (s : List (ℝ × ℝ) × ℝ × ℝ) i =>
      let pts := conn.line s.1 s.2.1 s.2.2 numberOfPoints
      let angle' := s.2.2 + 0.5 * conn.pi
      let length' := if i % 2 = 0 then height else width
      (pts, length', angle'))
    (points, width, angle)).1

/-- `conn::square` (conn.hh lines 699-706). -/
def square (points : List (ℝ × ℝ)) (length angle : ℝ)
    (numberOfPoints : ℕ) : List (ℝ × ℝ) :=
  conn.rectangle points length length angle numberOfPoints

/-- `conn::spiral` (conn.hh lines 721-750): appends `numberOfPoints` points
with radius and angle both linearly interpolated, around a center computed
from the last point of the track. -/
def spiral (points : List (ℝ × ℝ)) (initialRadius initialAngle finishRadius
    finishAngle : ℝ) (numberOfPoints : ℕ) : List (ℝ × ℝ) :=
  let xOffset := (points.getLastD (0, 0)).1 - initialRadius * Real.sin initialAngle
  let yOffset := (points.getLastD (0, 0)).2 - initialRadius * Real.cos initialAngle
  points ++ (List.range numberOfPoints).map (fun i =>
    let cut : ℝ := ((i + 1 : ℕ) : ℝ) / (numberOfPoints : ℝ)
    let radius := initialRadius + cut * (finishRadius - initialRadius)
    let angle := initialAngle + cut * (finishAngle - initialAngle)
    (xOffset + radius * Real.sin angle, yOffset + radius * Real.cos angle))

/-- `conn::sector` (conn.hh lines 763-773). -/
def sector (points : List (ℝ × ℝ)) (radius initialAngle finishAngle : ℝ)
    (numberOfPoints : ℕ) : List (ℝ × ℝ) :=
  conn.spiral points radius initialAngle radius finishAngle numberOfPoints

/-- `conn::circle` (conn.hh lines 784-793). -/
def circle (points : List (ℝ × ℝ)) (radius angle : ℝ)
    (numberOfPoints : ℕ) : List (ℝ × ℝ) :=
  conn.spiral points radius angle radius (angle + 2 * conn.pi) numberOfPoints

/-- One iteration of the `conn::squiggle` loop body (conn.hh lines 824-843);
the state is (track, angle, nextAngle, initialRotationAngle). -/
def squiggleStep (length radius rotationAngle : ℝ) (numberOfPoints : ℕ)
    (s : List (ℝ × ℝ) × ℝ × ℝ × ℝ) (i : ℕ) : List (ℝ × ℝ) × ℝ × ℝ × ℝ :=
  let pts := conn.sector s.1 radius (s.2.1 + s.2.2.2) (s.2.2.1 + s.2.2.2)
    numberOfPoints
  let angle' := s.2.2.1
  let ira' := -s.2.2.2
  let pts := conn.line pts length angle' numberOfPoints
  let nextAngle' := if i % 2 = 0 then s.2.2.1 + rotationAngle
    else s.2.2.1 - rotationAngle
  (pts, angle', nextAngle', ira')

/-- `conn::squiggle` (conn.hh lines 810-844): a first `line`, then for
`i = 1, …, numberOfLines - 1` a connecting `sector` followed by a `line`. -/
def squiggle (points : List (ℝ × ℝ)) (length radius angle rotationAngle : ℝ)
    (numberOfLines numberOfPoints : ℕ) : List (ℝ × ℝ) :=
  let points := conn.line points length angle numberOfPoints
  ((List.range' 1 (numberOfLines - 1)).foldl
    (conn.squiggleStep length radius rotationAngle numberOfPoints)
    (points, angle, angle + rotationAngle, -(0.5 * conn.pi))).1

/-- `conn::letterPi` (conn.hh lines 859-902): a fixed composition of four
sectors and three lines. -/
def letterPi (points : List (ℝ × ℝ)) (verticalLength horizontalLength radius
    angle : ℝ) (numberOfPoints : ℕ) : List (ℝ × ℝ) :=
  let angle1 := angle + conn.pi
  let rotationAngle1 := -(0.5 * conn.pi)
  let points := conn.sector points radius angle1 (angle1 + rotationAngle1)
    numberOfPoints
  let angle2 := angle1 + 2 * rotationAngle1
  let points := conn.line points verticalLength angle2 numberOfPoints
  let angle3 := angle2 - rotationAngle1
  let rotationAngle2 := rotationAngle1 * 3
  let points := conn.sector points radius angle3 (angle3 + rotationAngle2)
    numberOfPoints
  let points := conn.line points horizontalLength angle3 numberOfPoints
  let angle4 := angle3 + -rotationAngle2 / 3
  let points := conn.sector points radius angle4 (angle4 + rotationAngle2)
    numberOfPoints
  let points := conn.line points verticalLength angle4 numberOfPoints
  let rotationAngle3 := rotationAngle2 / 3
  let angle5 := angle4 - rotationAngle3
  conn.sector points radius angle5 (angle5 + rotationAngle3) numberOfPoints

/-! ### Basic bounds on the library's `pi` constant -/

theorem connPi_pos : 0 < conn.pi := by norm_num [conn.pi]

theorem connPi_gt_d2 : 3.14 < conn.pi := by norm_num [conn.pi]

theorem connPi_lt_d2 : conn.pi < 3.15 := by norm_num [conn.pi]

/-- The library constant `conn.pi` is strictly smaller than the real number π:
they agree on the first ten decimals but differ in the eleventh
(…5358979… versus …5357989…). -/
theorem connPi_lt_pi : conn.pi < Real.pi :=
  lt_trans (by norm_num [conn.pi]) Real.pi_gt_d20

theorem connPi_ne_zero : conn.pi ≠ 0 := ne_of_gt connPi_pos

/-! ### Properties of the `fmod` and `atan2` models -/

theorem rtrunc_of_nonneg {r : ℝ} (h : 0 ≤ r) : conn.rtrunc r = ⌊r⌋ :=
  if_pos h

/-- On `[-180, 180)` the longitude normalization `fmod (· + 540) 360 - 180`
is the identity. -/
theorem fmod_norm_eq_self {t : ℝ} (h1 : -180 ≤ t) (h2 : t < 180) :
    conn.fmod (t + 540) 360 - 180 = t := by
  have h0 : (0 : ℝ) ≤ (t + 540) / 360 := by linarith
  have hfl : ⌊(t + 540) / 360⌋ = 1 := by
    rw [Int.floor_eq_iff]
    constructor
    · push_cast; linarith
    · push_cast; linarith
  unfold conn.fmod
  rw [rtrunc_of_nonneg h0, hfl]
  push_cast; ring

/-- For a nonnegative argument, `fmod z 360` lands in `[0, 360)`. -/
theorem fmod_range_of_nonneg {z : ℝ} (h : 0 ≤ z) :
    0 ≤ conn.fmod z 360 ∧ conn.fmod z 360 < 360 := by
  unfold conn.fmod
  rw [rtrunc_of_nonneg (by positivity)]
  have hle : ((⌊z / 360⌋ : ℤ) : ℝ) ≤ z / 360 := Int.floor_le _
  have hlt : z / 360 < ((⌊z / 360⌋ : ℤ) : ℝ) + 1 := Int.lt_floor_add_one _
  constructor <;> nlinarith

theorem fmod_neg460 : conn.fmod (-460) 360 = -100 := by
  unfold conn.fmod conn.rtrunc
  rw [if_neg (by norm_num : ¬(0 : ℝ) ≤ -460 / 360)]
  have hc : ⌈(-460 / 360 : ℝ)⌉ = -1 := by
    rw [Int.ceil_eq_iff]
    constructor <;> norm_num
  rw [hc]; norm_num

theorem arctan_pos_aux {u : ℝ} (h : 0 < u) : 0 < Real.arctan u := by
  have := Real.arctan_strictMono h
  simpa using this

theorem arctan_nonpos_aux {u : ℝ} (h : u ≤ 0) : Real.arctan u ≤ 0 := by
  have := Real.arctan_strictMono.monotone h
  simpa using this

theorem atan2_zero_one : conn.atan2 0 1 = 0 := by
  unfold conn.atan2
  rw [if_pos one_pos]
  norm_num

theorem atan2_pos_of_pos {y : ℝ} (hy : 0 < y) (x : ℝ) : 0 < conn.atan2 y x := by
  unfold conn.atan2
  rcases lt_trichotomy x 0 with hx | hx | hx
  · rw [if_neg (by linarith), if_pos hx, if_pos hy.le]
    have := Real.neg_pi_div_two_lt_arctan (y / x)
    have := Real.pi_pos
    linarith
  · subst hx
    rw [if_neg (lt_irrefl 0), if_neg (lt_irrefl 0), if_pos hy]
    exact div_pos Real.pi_pos two_pos
  · rw [if_pos hx]
    exact arctan_pos_aux (div_pos hy hx)

theorem atan2_le_pi (y x : ℝ) : conn.atan2 y x ≤ Real.pi := by
  unfold conn.atan2
  have hπ := Real.pi_pos
  split_ifs with h1 h2' h3 h4 h5
  · linarith [Real.arctan_lt_pi_div_two (y / x)]
  · have : Real.arctan (y / x) ≤ 0 :=
      arctan_nonpos_aux (div_nonpos_of_nonneg_of_nonpos h3 h2'.le)
    linarith
  · linarith [Real.arctan_lt_pi_div_two (y / x)]
  · linarith
  · linarith
  · linarith

theorem neg_pi_lt_atan2 (y x : ℝ) : -Real.pi < conn.atan2 y x := by
  unfold conn.atan2
  have hπ := Real.pi_pos
  split_ifs with h1 h2' h3 h4 h5
  · linarith [Real.neg_pi_div_two_lt_arctan (y / x)]
  · linarith [Real.neg_pi_div_two_lt_arctan (y / x)]
  · have : 0 < Real.arctan (y / x) := by
      apply arctan_pos_aux
      exact div_pos_of_neg_of_neg (lt_of_not_le (by simpa using h3)) h2'
    linarith
  · linarith
  · linarith
  · linarith

/-- The cosine of the quadrant-correct arctangent, away from the origin. -/
theorem cos_atan2 {y x : ℝ} (h : x ≠ 0 ∨ y ≠ 0) :
    Real.cos (conn.atan2 y x) = x / Real.sqrt (x ^ 2 + y ^ 2) := by
  have hxy : 0 < x ^ 2 + y ^ 2 := by
    rcases h with h | h
    · have : 0 < x ^ 2 := by positivity
      nlinarith [sq_nonneg y]
    · have : 0 < y ^ 2 := by positivity
      nlinarith [sq_nonneg x]
  have hsq : 0 < Real.sqrt (x ^ 2 + y ^ 2) := Real.sqrt_pos.2 hxy
  unfold conn.atan2
  rcases lt_trichotomy x 0 with hx | hx | hx
  · have h1 : 1 + (y / x) ^ 2 = (x ^ 2 + y ^ 2) / x ^ 2 := by
      have hx2 : x ^ 2 ≠ 0 := pow_ne_zero 2 (by rintro rfl; exact lt_irrefl 0 hx)
      field_simp
    have h2 : Real.sqrt (1 + (y / x) ^ 2) = Real.sqrt (x ^ 2 + y ^ 2) / (-x) := by
      rw [h1, Real.sqrt_div (le_of_lt hxy), Real.sqrt_sq_eq_abs, abs_of_neg hx]
    rw [if_neg (by linarith), if_pos hx]
    have hcos : Real.cos (Real.arctan (y / x)) = 1 / Real.sqrt (1 + (y / x) ^ 2) :=
      Real.cos_arctan (y / x)
    split_ifs with hy
    · rw [Real.cos_add, Real.cos_pi, Real.sin_pi, hcos, h2]
      field_simp
    · rw [Real.cos_sub, Real.cos_pi, Real.sin_pi, hcos, h2]
      field_simp
  · subst hx
    rw [if_neg (lt_irrefl 0), if_neg (lt_irrefl 0)]
    split_ifs with hy1 hy2
    · simp [Real.cos_pi_div_two]
    · simp [Real.cos_pi_div_two]
    · exact absurd (le_antisymm (not_lt.1 hy1) (not_lt.1 hy2)) (by simpa using h)
  · have h1 : 1 + (y / x) ^ 2 = (x ^ 2 + y ^ 2) / x ^ 2 := by
      have hx2 : x ^ 2 ≠ 0 := pow_ne_zero 2 (by rintro rfl; exact lt_irrefl 0 hx)
      field_simp
    have h2 : Real.sqrt (1 + (y / x) ^ 2) = Real.sqrt (x ^ 2 + y ^ 2) / x := by
      rw [h1, Real.sqrt_div (le_of_lt hxy), Real.sqrt_sq_eq_abs, abs_of_pos hx]
    rw [if_pos hx, Real.cos_arctan, h2]
    field_simp

/-! ### Claim C8: shape validation -/

/-- C8: `failIfNotAGPSCoordinate c` raises the shape-validation error if and
only if `c` does not have exactly 3 components (in particular the length-2
input `[1, 2]` raises it), and `failIfNotAGPSPoint p` raises if and only if
`p` does not have exactly 2 coordinates or one of its two coordinates does
not have exactly 3 components; when no error is raised the functions return
normally with no other effect. -/
theorem shape_validation_spec :
    (∀ c : List ℝ, conn.failIfNotAGPSCoordinate c = Except.ok () ↔ c.length = 3) ∧
    conn.failIfNotAGPSCoordinate [1, 2] =
      Except.error "GPS coordinate should have 3 values." ∧
    (∀ p : List (List ℝ), conn.failIfNotAGPSPoint p = Except.ok () ↔
      p.length = 2 ∧ (p.getD 0 []).length = 3 ∧ (p.getD 1 []).length = 3) := by
  refine ⟨fun c => ?_, rfl, fun p => ?_⟩
  · unfold conn.failIfNotAGPSCoordinate
    split_ifs with h
    · simp [h.symm]
    · simp
      omega
  · rcases p with _ | ⟨a, p⟩
    · simp [conn.failIfNotAGPSPoint]
    rcases p with _ | ⟨b, p⟩
    · simp [conn.failIfNotAGPSPoint]
    rcases p with _ | ⟨c, p⟩
    · have hpt : conn.failIfNotAGPSPoint [a, b] =
          (do conn.failIfNotAGPSCoordinate a; conn.failIfNotAGPSCoordinate b) := rfl
      rw [hpt]
      unfold conn.failIfNotAGPSCoordinate
      split_ifs with ha hb hb'
      · simp [Bind.bind, Except.bind, ha.symm, hb.symm]
      · simp only [Bind.bind, Except.bind]
        simp
        omega
      · simp only [Bind.bind, Except.bind]
        simp
        omega
      · simp only [Bind.bind, Except.bind]
        simp
        omega
    · have hpt : conn.failIfNotAGPSPoint (a :: b :: c :: p) =
          Except.error "GPS point should have 2 coordinates." := by
        unfold conn.failIfNotAGPSPoint
        rw [if_neg (by simp)]
      rw [hpt]
      simp

/-! ### Claim C3: `gpsPointFromRadians` never converts -/

/-- C3: for every latitude and longitude, `gpsPointFromRadians` returns
exactly the same GPS point as `gpsPointFromDegrees`: despite its name it
never applies the radians-to-degrees conversion before decomposing its
arguments into (degrees, minutes, seconds). -/
theorem gpsPointFromRadians_eq_gpsPointFromDegrees (latitude longitude : ℝ) :
    conn.gpsPointFromRadians latitude longitude =
      conn.gpsPointFromDegrees latitude longitude :=
  rfl

/-! ### Claim C7: lossy sexagesimal round-trip -/

/-- C7: for every GPSCoordinate triple `[D, M, S]`,
`gpsCoordinateFromDegrees (degreesFromGPSCoordinate [D, M, S])` is the triple
obtained from `d = D + M/60 + S/3600` by repeated `floor`
(`degrees = ⌊d⌋`, `minutes = ⌊(d - degrees) * 60⌋`,
`seconds = ⌊(d - degrees - minutes/60) * 3600⌋`); sub-second precision is
discarded, so the round trip is lossy for non-exact inputs (for instance
`[0, 0, 1/2]` comes back as `[0, 0, 0]`). -/
theorem gpsCoordinateFromDegrees_roundtrip :
    (∀ D M S : ℝ,
      (conn.degreesFromGPSCoordinate [D, M, S]).map conn.gpsCoordinateFromDegrees =
        Except.ok
          [((⌊D + M / 60 + S / 3600⌋ : ℤ) : ℝ),
           ((⌊(D + M / 60 + S / 3600 - ((⌊D + M / 60 + S / 3600⌋ : ℤ) : ℝ)) * 60⌋ : ℤ) : ℝ),
           ((⌊(D + M / 60 + S / 3600 - ((⌊D + M / 60 + S / 3600⌋ : ℤ) : ℝ)
               - ((⌊(D + M / 60 + S / 3600 - ((⌊D + M / 60 + S / 3600⌋ : ℤ) : ℝ)) * 60⌋ : ℤ) : ℝ)
                 / 60) * 3600⌋ : ℤ) : ℝ)]) ∧
    (conn.degreesFromGPSCoordinate [0, 0, 1 / 2]).map conn.gpsCoordinateFromDegrees =
      Except.ok [0, 0, 0] := by
  have hval : ∀ D M S : ℝ, conn.degreesFromGPSCoordinate [D, M, S] =
      Except.ok (D + M / 60 + S / 3600) := by
    intro D M S
    have h36 : (60 : ℝ) * 60 = 3600 := by norm_num
    simp [conn.degreesFromGPSCoordinate, conn.failIfNotAGPSCoordinate, h36,
      Bind.bind, Except.bind, Pure.pure, Except.pure]
  constructor
  · intro D M S
    rw [hval, Except.map]
    rfl
  · rw [hval, Except.map]
    have h1 : ⌊((0 : ℝ) + 0 / 60 + 1 / 2 / 3600)⌋ = 0 := by
      rw [Int.floor_eq_zero_iff]
      constructor <;> norm_num
    simp only [conn.gpsCoordinateFromDegrees, h1]
    have h2 : ((0 : ℝ) + 0 / 60 + 1 / 2 / 3600 - ((0 : ℤ) : ℝ)) * 60 = 1 / 120 := by
      norm_num
    rw [h2]
    have h3 : ⌊(1 / 120 : ℝ)⌋ = 0 := by
      rw [Int.floor_eq_zero_iff]
      constructor <;> norm_num
    rw [h3]
    have h4 : ((0 : ℝ) + 0 / 60 + 1 / 2 / 3600 - ((0 : ℤ) : ℝ)
        - ((0 : ℤ) : ℝ) / 60) * 3600 = 1 / 2 := by
      norm_num
    rw [h4]
    have h5 : ⌊(1 / 2 : ℝ)⌋ = 0 := by
      rw [Int.floor_eq_zero_iff]
      constructor <;> norm_num
    rw [h5]
    norm_num

/-! ### Track generators: append-only behaviour and point counts -/

theorem line_appends (points : List (ℝ × ℝ)) (length angle : ℝ) (n : ℕ) :
    ∃ t, conn.line points length angle n = points ++ t :=
  ⟨_, rfl⟩

theorem spiral_appends (points : List (ℝ × ℝ)) (r0 a0 r1 a1 : ℝ) (n : ℕ) :
    ∃ t, conn.spiral points r0 a0 r1 a1 n = points ++ t :=
  ⟨_, rfl⟩

/-- Track generators whose loop carries extra state only extend the list held
in the first component of the accumulator. -/
theorem foldl_fst_appends {α σ : Type}
    (f : List (ℝ × ℝ) × σ → α → List (ℝ × ℝ) × σ)
    (hf : ∀ s i, ∃ t, (f s i).1 = s.1 ++ t) :
    ∀ (l : List α) (s : List (ℝ × ℝ) × σ), ∃ t, (l.foldl f s).1 = s.1 ++ t := by
  intro l
  induction l with
  | nil => exact fun s => ⟨[], by simp⟩
  | cons i l ih =>
    intro s
    obtain ⟨t1, h1⟩ := hf s i
    obtain ⟨t2, h2⟩ := ih (f s i)
    exact ⟨t1 ++ t2, by rw [List.foldl_cons, h2, h1, List.append_assoc]⟩

theorem rectangle_appends (points : List (ℝ × ℝ)) (width height angle : ℝ)
    (n : ℕ) : ∃ t, conn.rectangle points width height angle n = points ++ t := by
  exact foldl_fst_appends _ (fun s i => line_appends s.1 s.2.1 s.2.2 n) _ _

theorem square_appends (points : List (ℝ × ℝ)) (length angle : ℝ) (n : ℕ) :
    ∃ t, conn.square points length angle n = points ++ t :=
  rectangle_appends points length length angle n

theorem sector_appends (points : List (ℝ × ℝ)) (radius a0 a1 : ℝ) (n : ℕ) :
    ∃ t, conn.sector points radius a0 a1 n = points ++ t :=
  ⟨_, rfl⟩

theorem circle_appends (points : List (ℝ × ℝ)) (radius angle : ℝ) (n : ℕ) :
    ∃ t, conn.circle points radius angle n = points ++ t :=
  ⟨_, rfl⟩

theorem squiggleStep_appends (length radius rotationAngle : ℝ) (n : ℕ)
    (s : List (ℝ × ℝ) × ℝ × ℝ × ℝ) (i : ℕ) :
    ∃ t, (conn.squiggleStep length radius rotationAngle n s i).1 = s.1 ++ t := by
  obtain ⟨t1, h1⟩ := sector_appends s.1 radius (s.2.1 + s.2.2.2) (s.2.2.1 + s.2.2.2) n
  obtain ⟨t2, h2⟩ := line_appends (conn.sector s.1 radius (s.2.1 + s.2.2.2)
    (s.2.2.1 + s.2.2.2) n) length s.2.2.1 n
  exact ⟨t1 ++ t2, by
    show conn.line (conn.sector s.1 radius (s.2.1 + s.2.2.2) (s.2.2.1 + s.2.2.2) n)
      length s.2.2.1 n = s.1 ++ (t1 ++ t2)
    rw [h2, h1, List.append_assoc]⟩

theorem squiggle_appends (points : List (ℝ × ℝ)) (length radius angle
    rotationAngle : ℝ) (k n : ℕ) :
    ∃ t, conn.squiggle points length radius angle rotationAngle k n
      = points ++ t := by
  obtain ⟨t1, h1⟩ := line_appends points length angle n
  obtain ⟨t2, h2⟩ := foldl_fst_appends
    (conn.squiggleStep length radius rotationAngle n)
    (squiggleStep_appends length radius rotationAngle n)
    (List.range' 1 (k - 1))
    (conn.line points length angle n, angle, angle + rotationAngle,
      -(0.5 * conn.pi))
  refine ⟨t1 ++ t2, ?_⟩
  simp only [conn.squiggle]
  rw [h2, h1, List.append_assoc]

theorem letterPi_appends (points : List (ℝ × ℝ)) (v h radius angle : ℝ)
    (n : ℕ) : ∃ t, conn.letterPi points v h radius angle n = points ++ t := by
  have hsec : ∀ (q : List (ℝ × ℝ)) (rr a1 a2 : ℝ), (∃ u, q = points ++ u) →
      ∃ u, conn.sector q rr a1 a2 n = points ++ u := by
    rintro q rr a1 a2 ⟨u, rfl⟩
    obtain ⟨m, hm⟩ := sector_appends (points ++ u) rr a1 a2 n
    exact ⟨u ++ m, by rw [hm, List.append_assoc]⟩
  have hlin : ∀ (q : List (ℝ × ℝ)) (len a1 : ℝ), (∃ u, q = points ++ u) →
      ∃ u, conn.line q len a1 n = points ++ u := by
    rintro q len a1 ⟨u, rfl⟩
    obtain ⟨m, hm⟩ := line_appends (points ++ u) len a1 n
    exact ⟨u ++ m, by rw [hm, List.append_assoc]⟩
  simp only [conn.letterPi]
  apply hsec
  apply hlin
  apply hsec
  apply hlin
  apply hsec
  apply hlin
  apply hsec
  exact ⟨[], by simp⟩

theorem line_length (points : List (ℝ × ℝ)) (length angle : ℝ) (n : ℕ) :
    (conn.line points length angle n).length = points.length + n := by
  simp [conn.line]

theorem spiral_length (points : List (ℝ × ℝ)) (r0 a0 r1 a1 : ℝ) (n : ℕ) :
    (conn.spiral points r0 a0 r1 a1 n).length = points.length + n := by
  simp [conn.spiral]

theorem sector_length (points : List (ℝ × ℝ)) (radius a0 a1 : ℝ) (n : ℕ) :
    (conn.sector points radius a0 a1 n).length = points.length + n :=
  spiral_length points radius a0 radius a1 n

theorem squiggle_foldl_length (length radius rotationAngle : ℝ) (n : ℕ) :
    ∀ (l : List ℕ) (s : List (ℝ × ℝ) × ℝ × ℝ × ℝ),
      ((l.foldl (conn.squiggleStep length radius rotationAngle n) s).1).length
        = s.1.length + 2 * n * l.length := by
  intro l
  induction l with
  | nil => simp
  | cons i l ih =>
    intro s
    rw [List.foldl_cons, ih]
    have hstep : ((conn.squiggleStep length radius rotationAngle n s i).1).length
        = s.1.length + 2 * n := by
      show (conn.line (conn.sector s.1 radius _ _ n) length _ n).length = _
      rw [line_length, sector_length]
      ring
    rw [hstep]
    simp [List.length_cons]
    ring

/-! ### Claim C4: squiggle point count -/

/-- C4: for every track with at least one point and all real parameters, with
`numberOfLines = k ≥ 1` and `numberOfPoints = n`, `squiggle` appends exactly
`k*n + (k-1)*n` points: one first line of `n` points, then `k - 1` repetitions
of a connecting sector of `n` points followed by a line of `n` points. -/
theorem squiggle_point_count (points : List (ℝ × ℝ)) (_h : points ≠ [])
    (length radius angle rotationAngle : ℝ) (k n : ℕ) (hk : 1 ≤ k) :
    (conn.squiggle points length radius angle rotationAngle k n).length
      = points.length + (k * n + (k - 1) * n) := by
  simp only [conn.squiggle]
  rw [squiggle_foldl_length, line_length, List.length_range']
  have hk' : k - 1 + 1 = k := Nat.succ_pred_eq_of_pos hk
  cases' Nat.exists_eq_add_of_le hk with m hm
  subst hm
  simp [Nat.add_sub_cancel_left]
  ring

/-- Witness for C4 at the reference scenario `k = 8`, `n = 16` on the
one-point track `[(0, 0)]`. -/
theorem squiggle_point_count_witness :
    ([((0 : ℝ), (0 : ℝ))] ≠ []) ∧ 1 ≤ 8 ∧
    (conn.squiggle [((0 : ℝ), (0 : ℝ))] 1000 1000 (0.5 * conn.pi) conn.pi
      8 16).length = [((0 : ℝ), (0 : ℝ))].length + (8 * 16 + (8 - 1) * 16) :=
  ⟨by simp, by norm_num,
    squiggle_point_count [((0 : ℝ), (0 : ℝ))] (by simp) 1000 1000
      (0.5 * conn.pi) conn.pi 8 16 (by norm_num)⟩

/-! ### Claim C9: generators only append -/

/-- All eight track-generator primitives, at every parameter choice, produce a
list that extends `points`. -/
def generatorsOnlyAppend (points : List (ℝ × ℝ)) : Prop :=
  (∀ length angle : ℝ, ∀ n : ℕ, ∃ t, conn.line points length angle n = points ++ t) ∧
  (∀ width height angle : ℝ, ∀ n : ℕ,
    ∃ t, conn.rectangle points width height angle n = points ++ t) ∧
  (∀ length angle : ℝ, ∀ n : ℕ, ∃ t, conn.square points length angle n = points ++ t) ∧
  (∀ r0 a0 r1 a1 : ℝ, ∀ n : ℕ, ∃ t, conn.spiral points r0 a0 r1 a1 n = points ++ t) ∧
  (∀ radius a0 a1 : ℝ, ∀ n : ℕ, ∃ t, conn.sector points radius a0 a1 n = points ++ t) ∧
  (∀ radius angle : ℝ, ∀ n : ℕ, ∃ t, conn.circle points radius angle n = points ++ t) ∧
  (∀ length radius angle rotationAngle : ℝ, ∀ k n : ℕ,
    ∃ t, conn.squiggle points length radius angle rotationAngle k n = points ++ t) ∧
  (∀ v h radius angle : ℝ, ∀ n : ℕ,
    ∃ t, conn.letterPi points v h radius angle n = points ++ t)

/-- C9: for every non-empty track, every track-generator primitive (line,
rectangle, square, spiral, sector, circle, squiggle, letterPi) with any
parameters only appends new points: the original sequence is an unchanged
prefix of the result. -/
theorem generators_only_append (points : List (ℝ × ℝ)) (_h : points ≠ []) :
    conn.generatorsOnlyAppend points :=
  ⟨fun length angle n => line_appends points length angle n,
   fun width height angle n => rectangle_appends points width height angle n,
   fun length angle n => square_appends points length angle n,
   fun r0 a0 r1 a1 n => spiral_appends points r0 a0 r1 a1 n,
   fun radius a0 a1 n => sector_appends points radius a0 a1 n,
   fun radius angle n => circle_appends points radius angle n,
   fun length radius angle rot k n =>
     squiggle_appends points length radius angle rot k n,
   fun v hh radius angle n => letterPi_appends points v hh radius angle n⟩

/-- Witness for C9 on the seed track `[(0, 0)]`. -/
theorem generators_only_append_witness :
    ([((0 : ℝ), (0 : ℝ))] ≠ []) ∧ conn.generatorsOnlyAppend [((0 : ℝ), (0 : ℝ))] :=
  ⟨by simp, generators_only_append [((0 : ℝ), (0 : ℝ))] (by simp)⟩

/-! ### Claim C10: `numberOfPoints = 0` is a silent no-op -/

/-- C10: on every non-empty track, `line` and `spiral` (and `sector` and
`circle`, which delegate to `spiral`) called with `numberOfPoints = 0` return
normally and leave the track exactly unchanged: the interpolation loop body,
including its division by `numberOfPoints`, is never executed. -/
theorem zero_samples_noop (points : List (ℝ × ℝ)) (_h : points ≠ []) :
    (∀ length angle : ℝ, conn.line points length angle 0 = points) ∧
    (∀ r0 a0 r1 a1 : ℝ, conn.spiral points r0 a0 r1 a1 0 = points) ∧
    (∀ radius a0 a1 : ℝ, conn.sector points radius a0 a1 0 = points) ∧
    (∀ radius angle : ℝ, conn.circle points radius angle 0 = points) := by
  refine ⟨fun length angle => ?_, fun r0 a0 r1 a1 => ?_,
    fun radius a0 a1 => ?_, fun radius angle => ?_⟩
  · simp [conn.line]
  · simp [conn.spiral]
  · simp [conn.sector, conn.spiral]
  · simp [conn.circle, conn.spiral]

/-- Witness for C10 on the seed track `[(0, 0)]`. -/
theorem zero_samples_noop_witness :
    ([((0 : ℝ), (0 : ℝ))] ≠ []) ∧
    (∀ length angle : ℝ, conn.line [((0 : ℝ), (0 : ℝ))] length angle 0
      = [((0 : ℝ), (0 : ℝ))]) ∧
    (∀ r0 a0 r1 a1 : ℝ, conn.spiral [((0 : ℝ), (0 : ℝ))] r0 a0 r1 a1 0
      = [((0 : ℝ), (0 : ℝ))]) ∧
    (∀ radius a0 a1 : ℝ, conn.sector [((0 : ℝ), (0 : ℝ))] radius a0 a1 0
      = [((0 : ℝ), (0 : ℝ))]) ∧
    (∀ radius angle : ℝ, conn.circle [((0 : ℝ), (0 : ℝ))] radius angle 0
      = [((0 : ℝ), (0 : ℝ))]) :=
  ⟨by simp, zero_samples_noop [((0 : ℝ), (0 : ℝ))] (by simp)⟩

/-! ### Claim C6: distance vanishes on the diagonal and is symmetric -/

/-- C6: for every point `(lat, lon)` in decimal degrees and either value of
the radius flag, `distance (lat, lon) (lat, lon) = 0` exactly, and `distance`
is symmetric in its two points. -/
theorem distance_zero_and_symm :
    (∀ (lat lon : ℝ) (flag : Bool), conn.distance lat lon lat lon flag = 0) ∧
    (∀ (lat1 lon1 lat2 lon2 : ℝ) (flag : Bool),
      conn.distance lat1 lon1 lat2 lon2 flag
        = conn.distance lat2 lon2 lat1 lon1 flag) := by
  constructor
  · intro lat lon flag
    simp [conn.distance, sub_self, Real.sin_zero, atan2_zero_one]
  · intro lat1 lon1 lat2 lon2 flag
    simp only [conn.distance]
    have h1 : Real.sin (0.5 * (conn.radiansFromDegrees lat1
          - conn.radiansFromDegrees lat2)) ^ 2
        = Real.sin (0.5 * (conn.radiansFromDegrees lat2
          - conn.radiansFromDegrees lat1)) ^ 2 := by
      rw [show 0.5 * (conn.radiansFromDegrees lat1 - conn.radiansFromDegrees lat2)
          = -(0.5 * (conn.radiansFromDegrees lat2 - conn.radiansFromDegrees lat1))
          by ring, Real.sin_neg, neg_sq]
    have h2 : Real.sin (0.5 * (conn.radiansFromDegrees lon1
          - conn.radiansFromDegrees lon2)) ^ 2
        = Real.sin (0.5 * (conn.radiansFromDegrees lon2
          - conn.radiansFromDegrees lon1)) ^ 2 := by
      rw [show 0.5 * (conn.radiansFromDegrees lon1 - conn.radiansFromDegrees lon2)
          = -(0.5 * (conn.radiansFromDegrees lon2 - conn.radiansFromDegrees lon1))
          by ring, Real.sin_neg, neg_sq]
    rw [h1, h2, mul_comm (Real.cos (conn.radiansFromDegrees lat2))
      (Real.cos (conn.radiansFromDegrees lat1)), add_comm lat2 lat1]

/-! ### Claim C1: the GPSPoint distance overload drops the radius flag -/

/-- C1 (code bug): the GPSPoint overload of `distance` forwards only the four
converted coordinates and not `shouldCalculateEarthRadius`, so the delegated
call always runs with the default flag `false`.  At
`P1 = ((0,0,0), (0,0,0))`, `P2 = ((0,0,0), (90,0,0))` and flag `true`, the
overload returns the mean-radius value `distance 0 0 0 90 false`, which
differs from the `distance 0 0 0 90 true` that flag preservation would
require. -/
theorem distanceGPSPoints_drops_flag :
    conn.distanceGPSPoints [[0, 0, 0], [0, 0, 0]] [[0, 0, 0], [90, 0, 0]] true
      = Except.ok (conn.distance 0 0 0 90 false) ∧
    conn.distance 0 0 0 90 false ≠ conn.distance 0 0 0 90 true := by
  constructor
  · have hraw : conn.distanceGPSPoints [[0, 0, 0], [0, 0, 0]]
        [[0, 0, 0], [90, 0, 0]] true
        = Except.ok (conn.distance (0 + 0 / 60 + 0 / (60 * 60))
            (0 + 0 / 60 + 0 / (60 * 60)) (0 + 0 / 60 + 0 / (60 * 60))
            (90 + 0 / 60 + 0 / (60 * 60)) false) := rfl
    have a0 : (0 + 0 / 60 + 0 / (60 * 60) : ℝ) = 0 := by norm_num
    have a90 : (90 + 0 / 60 + 0 / (60 * 60) : ℝ) = 90 := by norm_num
    rw [hraw, a0, a90]
  · have hrd0 : conn.radiansFromDegrees 0 = 0 := by
      simp [conn.radiansFromDegrees]
    have hsin : 0 < Real.sin (0.5 * (conn.radiansFromDegrees 90
        - conn.radiansFromDegrees 0)) := by
      apply Real.sin_pos_of_pos_of_lt_pi
      · rw [hrd0]
        simp only [conn.radiansFromDegrees]
        norm_num [conn.pi]
      · rw [hrd0]
        simp only [conn.radiansFromDegrees]
        have := Real.pi_gt_three
        norm_num [conn.pi]
        linarith
    have hcER : conn.calculateEarthRadius (0.5 * (0 + 0))
        = conn.semiMajorEarthAxis := by
      have h00 : (0.5 : ℝ) * (0 + 0) = 0 := by norm_num
      rw [h00]
      simp only [conn.calculateEarthRadius, hrd0, Real.cos_zero, Real.sin_zero,
        mul_one, mul_zero]
      norm_num [conn.semiMajorEarthAxis, conn.semiMinorEarthAxis]
      rw [show (40680631590769 : ℝ) = 6378137 ^ 2 by norm_num,
        Real.sqrt_sq (by norm_num)]
    simp only [conn.distance, if_true, if_false, Bool.false_eq_true]
    rw [hcER]
    have hcos0 : Real.cos (conn.radiansFromDegrees 0) = 1 := by
      rw [hrd0, Real.cos_zero]
    have ha' : 0 < Real.sin (0.5 * (conn.radiansFromDegrees 0
          - conn.radiansFromDegrees 0)) ^ 2
        + Real.cos (conn.radiansFromDegrees 0)
          * Real.cos (conn.radiansFromDegrees 0)
          * Real.sin (0.5 * (conn.radiansFromDegrees 90
            - conn.radiansFromDegrees 0)) ^ 2 := by
      rw [sub_self, mul_zero, Real.sin_zero, hcos0]
      have := pow_pos hsin 2
      nlinarith
    have hc : 0 < 2 * conn.atan2
        (Real.sqrt (Real.sin (0.5 * (conn.radiansFromDegrees 0
            - conn.radiansFromDegrees 0)) ^ 2
          + Real.cos (conn.radiansFromDegrees 0)
            * Real.cos (conn.radiansFromDegrees 0)
            * Real.sin (0.5 * (conn.radiansFromDegrees 90
              - conn.radiansFromDegrees 0)) ^ 2))
        (Real.sqrt (1 - (Real.sin (0.5 * (conn.radiansFromDegrees 0
            - conn.radiansFromDegrees 0)) ^ 2
          + Real.cos (conn.radiansFromDegrees 0)
            * Real.cos (conn.radiansFromDegrees 0)
            * Real.sin (0.5 * (conn.radiansFromDegrees 90
              - conn.radiansFromDegrees 0)) ^ 2))) := by
      have := atan2_pos_of_pos (Real.sqrt_pos.2 ha')
      linarith [this (Real.sqrt (1 - (Real.sin (0.5 * (conn.radiansFromDegrees 0
          - conn.radiansFromDegrees 0)) ^ 2
        + Real.cos (conn.radiansFromDegrees 0)
          * Real.cos (conn.radiansFromDegrees 0)
          * Real.sin (0.5 * (conn.radiansFromDegrees 90
            - conn.radiansFromDegrees 0)) ^ 2)))]
    intro heq
    have := mul_right_cancel₀ (ne_of_gt hc) heq
    rw [conn.earthRadius, conn.semiMajorEarthAxis] at this
    norm_num at this

/-! ### Claim C2: range of the normalized destination longitude -/

/-- C2 (counterexample): at origin latitude 0, longitude −1000, distance 0 and
bearing 0, `destination` returns longitude −280, which does not lie in
(−180, 180]: with a far-out origin longitude the `fmod` normalization (which
rounds toward zero, keeping the sign of its first argument) leaves the
result below −180. -/
theorem destination_longitude_escapes :
    (conn.destination 0 (-1000) 0 0 false).2 = -280 ∧
    ¬(-180 < (conn.destination 0 (-1000) 0 0 false).2 ∧
      (conn.destination 0 (-1000) 0 0 false).2 ≤ 180) := by
  have hval : (conn.destination 0 (-1000) 0 0 false).2 = -280 := by
    simp only [conn.destination, conn.radiansFromDegrees, conn.degreesFromRadians]
    norm_num
    rw [atan2_zero_one, add_zero]
    have hconv : -(1000 * conn.pi) / 180 * 180 / conn.pi = -1000 := by
      have hne := connPi_ne_zero
      field_simp
      ring
    rw [hconv]
    rw [show (-1000 : ℝ) + 540 = -460 by norm_num, fmod_neg460]
    norm_num
  exact ⟨hval, by rw [hval]; norm_num⟩

/-- Helper for C2: the longitude normalization sends `lon + A` (in degrees,
`A` being the radian offset returned by `atan2`) into `[-180, 180)` whenever
`lon ≥ -359`. -/
theorem fmod_norm_range (lon A : ℝ) (h1 : -Real.pi < A) (h2 : A ≤ Real.pi)
    (h3 : -359 ≤ lon) :
    -180 ≤ conn.fmod (conn.degreesFromRadians
        (conn.radiansFromDegrees lon + A) + 540) 360 - 180 ∧
    conn.fmod (conn.degreesFromRadians
        (conn.radiansFromDegrees lon + A) + 540) 360 - 180 < 180 := by
  have hp := connPi_pos
  have hpgt := connPi_gt_d2
  have hπlt := Real.pi_lt_d2
  have hu : conn.degreesFromRadians (conn.radiansFromDegrees lon + A)
      = lon + A * 180 / conn.pi := by
    unfold conn.degreesFromRadians conn.radiansFromDegrees
    field_simp
  have hlb : -181 < A * 180 / conn.pi := by
    rw [lt_div_iff₀ hp]
    nlinarith
  have hub : A * 180 / conn.pi ≤ 181 := by
    rw [div_le_iff₀ hp]
    nlinarith
  rw [hu]
  obtain ⟨hf0, hf1⟩ := fmod_range_of_nonneg
    (show 0 ≤ lon + A * 180 / conn.pi + 540 by linarith)
  constructor <;> linarith

/-- C2 (amended): for every origin with longitude ≥ −359 (in particular for
every longitude already in (−180, 180]), every distance, every bearing and
either radius flag, the longitude component returned by `destination` lies in
the half-open interval [−180, 180): the normalization
`fmod(λ2 + 540, 360) − 180` may yield exactly −180 and never yields 180. -/
theorem destination_longitude_range (lat lon d bearing : ℝ) (flag : Bool)
    (hlon : -359 ≤ lon) :
    -180 ≤ (conn.destination lat lon d bearing flag).2 ∧
    (conn.destination lat lon d bearing flag).2 < 180 := by
  simp only [conn.destination]
  exact fmod_norm_range lon _ (neg_pi_lt_atan2 _ _) (atan2_le_pi _ _) hlon

/-- Witness for C2 (amended) at the origin, distance 0, bearing 0. -/
theorem destination_longitude_range_witness :
    (-359 ≤ (0 : ℝ)) ∧
    (-180 ≤ (conn.destination 0 0 0 0 false).2 ∧
      (conn.destination 0 0 0 0 false).2 < 180) :=
  ⟨by norm_num, destination_longitude_range 0 0 0 0 false (by norm_num)⟩

/-! ### The direct geodesic problem inverts the Haversine distance -/

theorem radiansFromDegrees_degreesFromRadians (t : ℝ) :
    conn.radiansFromDegrees (conn.degreesFromRadians t) = t := by
  unfold conn.radiansFromDegrees conn.degreesFromRadians
  have hne := connPi_ne_zero
  field_simp

/-- Analytic core: if `(x, y)` is the scaled direction vector of the
destination (`x = cos δ - sin φ1 * sin φ2`, with `x² + y² = cos² φ1 *
(1 - sin² φ2)`), then the spherical-law-of-cosines combination built from
`atan2 y x` recovers `cos δ`. -/
theorem central_from_xy (S C cδ s4 x y : ℝ) (hC : 0 < C) (hs4sq : s4 ^ 2 ≤ 1)
    (hx : x = cδ - S * s4) (hxy : x ^ 2 + y ^ 2 = C ^ 2 * (1 - s4 ^ 2))
    (hdeg : s4 ^ 2 = 1 → S * s4 = cδ) :
    S * s4 + C * Real.sqrt (1 - s4 ^ 2) * Real.cos (conn.atan2 y x) = cδ := by
  by_cases h1 : 1 - s4 ^ 2 = 0
  · rw [h1, Real.sqrt_zero]
    have := hdeg (by linarith)
    simpa using this
  · have hlt : 0 < 1 - s4 ^ 2 := lt_of_le_of_ne (by nlinarith) (Ne.symm h1)
    have hne : x ≠ 0 ∨ y ≠ 0 := by
      by_contra hcon
      push_neg at hcon
      obtain ⟨hx0, hy0⟩ := hcon
      have h0 : x ^ 2 + y ^ 2 = 0 := by rw [hx0, hy0]; ring
      rw [hxy] at h0
      exact absurd h0 (ne_of_gt (mul_pos (pow_pos hC 2) hlt))
    rw [cos_atan2 hne, hxy]
    have hsqrtC : Real.sqrt (C ^ 2 * (1 - s4 ^ 2))
        = C * Real.sqrt (1 - s4 ^ 2) := by
      rw [Real.sqrt_mul (by positivity), Real.sqrt_sq hC.le]
    rw [hsqrtC]
    have hsq : 0 < Real.sqrt (1 - s4 ^ 2) := Real.sqrt_pos.2 hlt
    have hCne : C ≠ 0 := ne_of_gt hC
    have hsqne : Real.sqrt (1 - s4 ^ 2) ≠ 0 := ne_of_gt hsq
    field_simp
    rw [hx]
    ring

/-- The Haversine `a`-term equals `(1 - cos δ)/2` whenever the
spherical law of cosines gives central angle `δ`. -/
theorem haversine_a (φ1 φ2 Δ δ : ℝ)
    (hcentral : Real.sin φ1 * Real.sin φ2
      + Real.cos φ1 * Real.cos φ2 * Real.cos Δ = Real.cos δ) :
    Real.sin (0.5 * (φ2 - φ1)) ^ 2
      + Real.cos φ1 * Real.cos φ2 * Real.sin (0.5 * Δ) ^ 2
      = (1 - Real.cos δ) / 2 := by
  have e1 : Real.sin (0.5 * (φ2 - φ1)) ^ 2
      = 1 / 2 - Real.cos (φ2 - φ1) / 2 := by
    rw [Real.sin_sq_eq_half_sub, show 2 * (0.5 * (φ2 - φ1)) = φ2 - φ1 by ring]
  have e2 : Real.sin (0.5 * Δ) ^ 2 = 1 / 2 - Real.cos Δ / 2 := by
    rw [Real.sin_sq_eq_half_sub, show 2 * (0.5 * Δ) = Δ by ring]
  rw [e1, e2]
  have e3 := Real.cos_sub φ2 φ1
  linear_combination (-1 / 2 : ℝ) * e3 + (-1 / 2 : ℝ) * hcentral

/-- Reconstructing the angular distance from its haversine: for
`δ ∈ [0, π]`, `2 * atan2 √((1-cos δ)/2) √(1-(1-cos δ)/2) = δ`. -/
theorem atan2_half_angle (δ : ℝ) (h0 : 0 ≤ δ) (hπ : δ ≤ Real.pi) :
    2 * conn.atan2 (Real.sqrt ((1 - Real.cos δ) / 2))
      (Real.sqrt (1 - (1 - Real.cos δ) / 2)) = δ := by
  have hπ0 := Real.pi_pos
  have h2 : (1 - Real.cos δ) / 2 = Real.sin (δ / 2) ^ 2 := by
    rw [Real.sin_sq_eq_half_sub, show 2 * (δ / 2) = δ by ring]
    ring
  have h3 : (1 : ℝ) - Real.sin (δ / 2) ^ 2 = Real.cos (δ / 2) ^ 2 := by
    linarith [Real.sin_sq_add_cos_sq (δ / 2)]
  have hs : 0 ≤ Real.sin (δ / 2) :=
    Real.sin_nonneg_of_nonneg_of_le_pi (by linarith) (by linarith)
  have hc : 0 ≤ Real.cos (δ / 2) :=
    Real.cos_nonneg_of_mem_Icc ⟨by linarith, by linarith⟩
  rw [h2, h3, Real.sqrt_sq_eq_abs, Real.sqrt_sq_eq_abs,
    abs_of_nonneg hs, abs_of_nonneg hc]
  by_cases hδπ : δ = Real.pi
  · subst hδπ
    rw [show Real.pi / 2 = Real.pi / 2 from rfl, Real.cos_pi_div_two,
      Real.sin_pi_div_two]
    unfold conn.atan2
    rw [if_neg (lt_irrefl 0), if_neg (lt_irrefl 0), if_pos one_pos]
    ring
  · have hδltπ : δ < Real.pi := lt_of_le_of_ne hπ hδπ
    have hcpos : 0 < Real.cos (δ / 2) :=
      Real.cos_pos_of_mem_Ioo ⟨by linarith, by linarith⟩
    unfold conn.atan2
    rw [if_pos hcpos, ← Real.tan_eq_sin_div_cos,
      Real.arctan_tan (by linarith) (by linarith)]
    ring

/-- The point produced by `destination`'s formulas lies at spherical central
angle exactly `δ` from the origin `(φ1, 0)`, for `cos φ1 > 0`: the
law-of-cosines combination of its latitude `arcsin s4` and longitude offset
`atan2 y x` returns `cos δ`. -/
theorem dest_central_angle (φ1 δ θr : ℝ) (hφ : 0 < Real.cos φ1) :
    Real.sin φ1 * Real.sin (Real.arcsin
        (Real.sin φ1 * Real.cos δ + Real.cos φ1 * Real.sin δ * Real.cos θr))
      + Real.cos φ1 * Real.cos (Real.arcsin
          (Real.sin φ1 * Real.cos δ + Real.cos φ1 * Real.sin δ * Real.cos θr))
        * Real.cos (conn.atan2
            (Real.sin θr * Real.sin δ * Real.cos φ1)
            (Real.cos δ - Real.sin φ1
              * (Real.sin φ1 * Real.cos δ
                + Real.cos φ1 * Real.sin δ * Real.cos θr)))
      = Real.cos δ := by
  have hP1 := Real.sin_sq_add_cos_sq φ1
  have hP2 := Real.sin_sq_add_cos_sq δ
  have hP3 := Real.sin_sq_add_cos_sq θr
  set S := Real.sin φ1 with hS
  set C := Real.cos φ1 with hC'
  set sδ := Real.sin δ with hsδ
  set cδ := Real.cos δ with hcδ
  set sθ := Real.sin θr with hsθ
  set cθ := Real.cos θr with hcθ
  have hkey : (S * cδ + C * sδ * cθ) ^ 2 + (S * sδ * cθ - C * cδ) ^ 2
      + sδ ^ 2 * sθ ^ 2 = 1 := by
    linear_combination (cδ ^ 2 + sδ ^ 2 * cθ ^ 2) * hP1 + sδ ^ 2 * hP3 + hP2
  have hs4sq : (S * cδ + C * sδ * cθ) ^ 2 ≤ 1 := by
    nlinarith [hkey, sq_nonneg (S * sδ * cθ - C * cδ), sq_nonneg (sδ * sθ)]
  have hsin : Real.sin (Real.arcsin (S * cδ + C * sδ * cθ))
      = S * cδ + C * sδ * cθ :=
    Real.sin_arcsin
      (by nlinarith [hs4sq, sq_nonneg (S * cδ + C * sδ * cθ + 1)])
      (by nlinarith [hs4sq, sq_nonneg (S * cδ + C * sδ * cθ - 1)])
  have hcos : Real.cos (Real.arcsin (S * cδ + C * sδ * cθ))
      = Real.sqrt (1 - (S * cδ + C * sδ * cθ) ^ 2) := Real.cos_arcsin _
  rw [hsin, hcos]
  have hxy : (cδ - S * (S * cδ + C * sδ * cθ)) ^ 2 + (sθ * sδ * C) ^ 2
      = C ^ 2 * (1 - (S * cδ + C * sδ * cθ) ^ 2) := by
    linear_combination ((S * cδ + C * sδ * cθ) ^ 2 - cδ ^ 2) * hP1
      + C ^ 2 * hP2 + C ^ 2 * sδ ^ 2 * hP3
  have hdeg : (S * cδ + C * sδ * cθ) ^ 2 = 1 → S * (S * cδ + C * sδ * cθ) = cδ := by
    intro hone
    have h10 : (S * sδ * cθ - C * cδ) ^ 2 = 0 := by
      nlinarith [hkey, sq_nonneg (sδ * sθ), sq_nonneg (S * sδ * cθ - C * cδ)]
    have h11 : S * sδ * cθ = C * cδ :=
      sub_eq_zero.1 ((pow_eq_zero_iff two_ne_zero).1 h10)
    linear_combination cδ * hP1 + C * h11
  exact central_from_xy S C cδ (S * cδ + C * sδ * cθ)
    (cδ - S * (S * cδ + C * sδ * cθ)) (sθ * sδ * C) hφ hs4sq rfl hxy hdeg

/-- C5 (amended): over exact real arithmetic with the default mean Earth
radius in both calls, for every origin with `|lat| ≤ 90`, every bearing, and
every `0 ≤ d ≤ π * R`, the Haversine distance from the origin to
`destination lat lon d θ` is exactly `d` — provided the destination longitude
needs no wrap-around, i.e. the pre-normalization longitude lies in
[−180, 180) (when `fmod` does shift by a multiple of 360 degrees, the
library's inexact `pi` constant makes the shift miss a true period of
sin/cos and the equality fails, see the counterexample). -/
theorem haversine_destination_roundtrip (lat lon d θ : ℝ)
    (hlat : |lat| ≤ 90) (hd0 : 0 ≤ d) (hdπ : d ≤ Real.pi * conn.earthRadius)
    (hnowrap : -180 ≤ conn.unnormalizedDestinationLongitude lat lon d θ false ∧
      conn.unnormalizedDestinationLongitude lat lon d θ false < 180) :
    conn.distance lat lon (conn.destination lat lon d θ false).1
      (conn.destination lat lon d θ false).2 false = d := by
  have hR : (0 : ℝ) < conn.earthRadius := by norm_num [conn.earthRadius]
  have hRne : conn.earthRadius ≠ 0 := ne_of_gt hR
  have hδ0 : 0 ≤ d / conn.earthRadius := div_nonneg hd0 hR.le
  have hδπ : d / conn.earthRadius ≤ Real.pi := by
    rw [div_le_iff₀ hR]
    linarith
  have hφabs : |conn.radiansFromDegrees lat| < Real.pi / 2 := by
    unfold conn.radiansFromDegrees
    have h1 : |lat * conn.pi / 180| = |lat| * conn.pi / 180 := by
      rw [abs_div, abs_mul, abs_of_pos connPi_pos]
      norm_num
    have h2 : |lat| * conn.pi / 180 ≤ 90 * conn.pi / 180 := by
      gcongr
      exact connPi_pos.le
    have h3 : (90 : ℝ) * conn.pi / 180 = conn.pi / 2 := by ring
    rw [h1]
    rw [h3] at h2
    linarith [connPi_lt_pi]
  have hφ : 0 < Real.cos (conn.radiansFromDegrees lat) := by
    have h := abs_lt.1 hφabs
    exact Real.cos_pos_of_mem_Ioo ⟨h.1, h.2⟩
  have hd1 : (conn.destination lat lon d θ false).1
      = conn.degreesFromRadians (Real.arcsin
          (Real.sin (conn.radiansFromDegrees lat) * Real.cos (d / conn.earthRadius)
            + Real.cos (conn.radiansFromDegrees lat)
              * Real.sin (d / conn.earthRadius)
              * Real.cos (conn.radiansFromDegrees θ))) := rfl
  have hd2a : (conn.destination lat lon d θ false).2
      = conn.fmod (conn.unnormalizedDestinationLongitude lat lon d θ false + 540)
          360 - 180 := rfl
  have hd2 : (conn.destination lat lon d θ false).2
      = conn.unnormalizedDestinationLongitude lat lon d θ false := by
    rw [hd2a]
    exact fmod_norm_eq_self hnowrap.1 hnowrap.2
  have hd2b : conn.unnormalizedDestinationLongitude lat lon d θ false
      = conn.degreesFromRadians (conn.radiansFromDegrees lon
          + conn.atan2
              (Real.sin (conn.radiansFromDegrees θ)
                * Real.sin (d / conn.earthRadius)
                * Real.cos (conn.radiansFromDegrees lat))
              (Real.cos (d / conn.earthRadius)
                - Real.sin (conn.radiansFromDegrees lat)
                  * (Real.sin (conn.radiansFromDegrees lat)
                      * Real.cos (d / conn.earthRadius)
                    + Real.cos (conn.radiansFromDegrees lat)
                      * Real.sin (d / conn.earthRadius)
                      * Real.cos (conn.radiansFromDegrees θ)))) := rfl
  rw [hd1, hd2, hd2b]
  simp only [conn.distance, if_true, if_false, Bool.false_eq_true]
  rw [radiansFromDegrees_degreesFromRadians, radiansFromDegrees_degreesFromRadians,
    add_sub_cancel_left]
  have hcent := dest_central_angle (conn.radiansFromDegrees lat)
    (d / conn.earthRadius) (conn.radiansFromDegrees θ) hφ
  rw [haversine_a _ _ _ _ hcent, atan2_half_angle _ hδ0 hδπ, mul_comm,
    div_mul_cancel₀ d hRne]

/-- Witness for C5 (amended) at the origin with distance 0 and bearing 0. -/
theorem haversine_destination_roundtrip_witness :
    (|(0 : ℝ)| ≤ 90) ∧ ((0 : ℝ) ≤ 0) ∧ ((0 : ℝ) ≤ Real.pi * conn.earthRadius) ∧
    (-180 ≤ conn.unnormalizedDestinationLongitude 0 0 0 0 false ∧
      conn.unnormalizedDestinationLongitude 0 0 0 0 false < 180) ∧
    conn.distance 0 0 (conn.destination 0 0 0 0 false).1
      (conn.destination 0 0 0 0 false).2 false = 0 := by
  have hu : conn.unnormalizedDestinationLongitude 0 0 0 0 false = 0 := by
    simp only [conn.unnormalizedDestinationLongitude, conn.radiansFromDegrees,
      conn.degreesFromRadians]
    norm_num
    rw [atan2_zero_one]
    norm_num
  have hwrap : -180 ≤ conn.unnormalizedDestinationLongitude 0 0 0 0 false ∧
      conn.unnormalizedDestinationLongitude 0 0 0 0 false < 180 := by
    rw [hu]
    norm_num
  have hπR : (0 : ℝ) ≤ Real.pi * conn.earthRadius :=
    le_of_lt (mul_pos Real.pi_pos (by norm_num [conn.earthRadius]))
  exact ⟨by norm_num, le_refl 0, hπR, hwrap,
    haversine_destination_roundtrip 0 0 0 0 (by norm_num) (le_refl 0)
      hπR hwrap⟩

theorem fmod_1260 : conn.fmod 1260 360 = 180 := by
  unfold conn.fmod
  rw [rtrunc_of_nonneg (by norm_num)]
  have h : ⌊(1260 / 360 : ℝ)⌋ = 3 := by
    rw [Int.floor_eq_iff]
    constructor <;> norm_num
  rw [h]
  norm_num

/-- C5 (counterexample): the round-trip identity fails as stated once the
longitude normalization wraps.  At origin (0, 720), distance 0 and bearing 0,
`destination` returns (0, 0) — the longitude was shifted by 720 degrees,
which in the library's conversion is `4 * conn.pi` radians, not a true period
of sine — and the Haversine distance back to the origin is
`R * 2 * atan2 (√(sin(2·conn.pi)²)) (…) > 0`, not the claimed `d = 0`
(`sin (2·conn.pi) ≠ 0` because `conn.pi ≠ π`).  The input satisfies all of
the claim's constraints (`|lat| ≤ 90`, `0 ≤ d ≤ π·R`). -/
theorem haversine_roundtrip_fails_on_wrap :
    (|(0 : ℝ)| ≤ 90 ∧ (0 : ℝ) ≤ 0 ∧ (0 : ℝ) ≤ Real.pi * conn.earthRadius) ∧
    conn.distance 0 720 (conn.destination 0 720 0 0 false).1
      (conn.destination 0 720 0 0 false).2 false ≠ 0 := by
  constructor
  · exact ⟨by norm_num, le_refl 0,
      le_of_lt (mul_pos Real.pi_pos (by norm_num [conn.earthRadius]))⟩
  have hdest1 : (conn.destination 0 720 0 0 false).1 = 0 := by
    simp only [conn.destination, conn.radiansFromDegrees, conn.degreesFromRadians]
    norm_num
  have hdest2 : (conn.destination 0 720 0 0 false).2 = 0 := by
    simp only [conn.destination, conn.radiansFromDegrees, conn.degreesFromRadians]
    norm_num
    rw [atan2_zero_one, add_zero]
    have hconv : 720 * conn.pi / 180 * 180 / conn.pi = 720 := by
      have hne := connPi_ne_zero
      field_simp
    rw [hconv, show (720 : ℝ) + 540 = 1260 by norm_num, fmod_1260]
    norm_num
  rw [hdest1, hdest2]
  have hrd0 : conn.radiansFromDegrees 0 = 0 := by
    simp [conn.radiansFromDegrees]
  have harg : 0.5 * (conn.radiansFromDegrees 0 - conn.radiansFromDegrees 720)
      = -(2 * conn.pi) := by
    unfold conn.radiansFromDegrees
    ring
  have hsin2p : Real.sin (2 * conn.pi) < 0 := by
    have h1 : Real.pi < 2 * conn.pi := by
      linarith [connPi_gt_d2, Real.pi_lt_d2]
    have h2 : 2 * conn.pi < 2 * Real.pi := by
      linarith [connPi_lt_pi]
    have h3 : 0 < Real.sin (2 * conn.pi - Real.pi) :=
      Real.sin_pos_of_pos_of_lt_pi (by linarith) (by linarith)
    have h4 := Real.sin_sub_pi (2 * conn.pi)
    linarith
  have hE : conn.distance 0 720 0 0 false
      = conn.earthRadius * (2 * conn.atan2
          (Real.sqrt (Real.sin (2 * conn.pi) ^ 2))
          (Real.sqrt (1 - Real.sin (2 * conn.pi) ^ 2))) := by
    simp only [conn.distance, Bool.false_eq_true, if_false]
    rw [sub_self, mul_zero, Real.sin_zero, harg, Real.sin_neg, neg_sq, hrd0,
      Real.cos_zero]
    norm_num
  rw [hE]
  apply ne_of_gt
  apply mul_pos (by norm_num [conn.earthRadius])
  have hs2 : 0 < Real.sin (2 * conn.pi) ^ 2 := by nlinarith
  have hpos := atan2_pos_of_pos (Real.sqrt_pos.2 hs2)
    (Real.sqrt (1 - Real.sin (2 * conn.pi) ^ 2))
  linarith

end conn

end
